import Mathlib

/-!
Shallow embedding of the request-authentication and resilient-delivery core
of the `dkln/go-aws` client library (packages `aws` and `s3`), together with
proofs about it.

Modelling conventions:
* Go `time.Time` instants and `time.Duration` values are both modelled as
  `Int` (nanoseconds); the wall clock is passed explicitly to every
  operation that calls `time.Now()`.
* `time.Sleep` is modelled by passing the instant observed after waking up
  (`wake`) as an explicit parameter, so theorems quantify over every
  possible advance of real time during the sleep.
* Go maps `url.Values` / `http.Header` are modelled as association lists
  `List (String × List String)`; the map copies made in `S3.prepare` are
  value-preserving and hence the identity in this model.
* In-place mutation of a struct is modelled by returning the updated value;
  a Go function that both mutates and returns an `error` is modelled as
  returning the final state paired with an `Option String` error.
-/

namespace aws

/-- `AttemptStrategy` from `src/aws/attempt.go`: a strategy for waiting for
an action to complete successfully. -/
structure AttemptStrategy where
  Total : Int  -- total duration of attempt
  Delay : Int  -- interval between each try in the burst
  Min   : Int  -- minimum number of retries; overrides Total
deriving Repr, DecidableEq

/-- `Attempt` from `src/aws/attempt.go`. The Go field `end` is a Lean
keyword and is rendered `endTime`. -/
structure Attempt where
  strategy : AttemptStrategy
  last     : Int
  endTime  : Int
  force    : Bool
  count    : Int
deriving Repr, DecidableEq

/-- `AttemptStrategy.Start`: begins a new sequence of attempts, at clock
instant `now`. -/
def AttemptStrategy.start (self : AttemptStrategy) (now : Int) : Attempt :=
  { strategy := self
    last := now
    endTime := now + self.Total
    force := true
    count := 0 }

/-- `Attempt.nextSleep` from `src/aws/attempt.go`. -/
def Attempt.nextSleep (self : Attempt) (now : Int) : Int :=
  let sleep := self.strategy.Delay - (now - self.last)
  if sleep < 0 then 0 else sleep

/-- `Attempt.Next` from `src/aws/attempt.go`: waits until it is time to
perform the next attempt or returns false if it is time to stop trying.
`now` is the instant read at entry; `wake` is the instant observed after the
`time.Sleep` call (when one happens). Returns the Go boolean result paired
with the updated receiver. -/
def Attempt.next (self : Attempt) (now wake : Int) : Bool × Attempt :=
  let sleep := self.nextSleep now
  if self.force = false ∧ ¬ now + sleep < self.endTime ∧ self.strategy.Min ≤ self.count then
    (false, self)
  else
    let a := { self with force := false }
    if sleep > 0 ∧ a.count > 0 then
      (true, { a with count := a.count + 1, last := wake })
    else
      (true, { a with count := a.count + 1, last := now })

/-- `Attempt.HasNext` from `src/aws/attempt.go`: whether another attempt
will be made if the current one fails; may set the `force` flag as a side
effect. Returns the Go boolean result paired with the updated receiver. -/
def Attempt.hasNext (self : Attempt) (now : Int) : Bool × Attempt :=
  if self.force = true ∨ self.strategy.Min > self.count then
    (true, self)
  else if now + self.nextSleep now < self.endTime then
    (true, { self with force := true })
  else
    (false, self)

/-- A state from which `next` is guaranteed to return true at any clock
instant: either the `force` flag is set or the minimum-attempt quota is
still unmet. -/
def Attempt.nextGuaranteed (self : Attempt) : Prop :=
  self.force = true ∨ self.count < self.strategy.Min

instance (a : Attempt) : Decidable a.nextGuaranteed := by
  unfold Attempt.nextGuaranteed; infer_instance

/-- `Auth` from `src/auth.go`: an access key / secret key / optional
session token triple. -/
structure Auth where
  AccessKey : String
  SecretKey : String
  Token     : String
deriving Repr, DecidableEq

/-- `Region` from the region table file (`src/unnamed/part_003`), restricted
to the fields the S3 request path reads; the other service endpoints
(EC2, SDB, SNS, SQS, IAM) play no role in the claims and are omitted. -/
structure Region where
  Name                 : String
  S3Endpoint           : String
  S3BucketEndpoint     : String
  S3LocationConstraint : Bool
  S3LowercaseBucket    : Bool
deriving Repr, DecidableEq

end aws

namespace s3

/-- Modelled from the spec: the `s3.Error` (StructuredError) type is not
under `src/` — only its uses in `s3.go` (`err.Code`, `err.Message`,
`err.StatusCode`) are. Per the spec's data model it is
`{httpStatusCode, errorCode (string token), message, requestID (optional)}`,
produced once per failed call. -/
structure Error where
  StatusCode : Int
  Code       : String
  Message    : String
  RequestId  : String
deriving Repr, DecidableEq

end s3

/-- The slice of Go's `net/http.Response` that the code under `src/` reads:
the numeric status code, the status line text (`r.Status`), and — standing
in for the response body — the result of XML-decoding that body into a
zero `s3.Error` value (`xml.NewDecoder(r.Body).Decode(&err)` leaves the
zero value untouched when decoding fails; the source ignores that error). -/
structure HttpResponse where
  StatusCode : Int
  Status     : String
  errorBody  : s3.Error
deriving Repr, DecidableEq

namespace aws

/-- The slice of Go's `error` values that `awsRetry` in `src/aws/client.go`
distinguishes: a `net.Error` with its `Temporary()` answer, or any other
non-nil error. -/
inductive GoTransportError where
  | net (temporary : Bool)
  | other
deriving Repr, DecidableEq

/-- `awsRetry` from `src/aws/client.go`, the default transport-level
retryability predicate. The `*http.Request` argument is ignored by the
source and omitted here; `res`/`err` are nil-able and modelled as options.
The sequential re-assignments of `retry` mirror the source. -/
def awsRetry (res : Option HttpResponse) (err : Option GoTransportError) : Bool :=
  let retry := false
  -- Don't retry if we got a result and no error.
  let retry := match err, res with
    | none, some _ => false
    | _, _ => retry
  -- Retry if there's a temporary network error.
  let retry := match err with
    | some (.net temporary) => if temporary then true else retry
    | _ => retry
  -- Retry if we get a 5xx series error.
  let retry := match res with
    | some r => if 500 ≤ r.StatusCode ∧ r.StatusCode < 600 then true else retry
    | none => retry
  retry

/-- Restatement of the spec's wording for the default retry policy:
the error is a temporary network error. -/
def isTemporaryNetError : Option GoTransportError → Bool
  | some (.net temporary) => temporary
  | _ => false

/-- Restatement of the spec's wording for the default retry policy:
the response is non-nil with a 5xx status. -/
def is5xxResponse : Option HttpResponse → Bool
  | some r => decide (500 ≤ r.StatusCode ∧ r.StatusCode < 600)
  | none => false

/-- One round trip of the underlying transport: a response-or-nil and an
error-or-nil pair, as handed to `ShouldRetry`. -/
abbrev RoundTripResult : Type := Option HttpResponse × Option GoTransportError

/-- `ResilientTransport` from `src/aws/resilient_transport.go`, restricted
to the fields its retry loop reads. `Wait` and the body-close on retry are
side effects with no bearing on the returned value and are modelled as
no-ops; `DialTimeout`/`Deadline` configure the underlying dial only. -/
structure ResilientTransport where
  MaxTries    : Int
  ShouldRetry : RoundTripResult → Bool

/-- The loop of `ResilientTransport.tries`
(`for try := 0; try < MaxTries; try++ { ... }`), with the underlying
transport execution modelled by an oracle giving the result of each round
trip in order. `fuel` is the number of loop iterations remaining,
`executed` the number of round trips done so far, `last` the current
`(response, error)` pair (initially `(nil, nil)`). Returns the total number
of round trips performed and the final pair. -/
def triesGo (p : RoundTripResult → Bool) (oracle : Nat → RoundTripResult) :
    Nat → Nat → RoundTripResult → Nat × RoundTripResult
  | 0, executed, last => (executed, last)
  | fuel + 1, executed, _ =>
    let r := oracle executed
    if p r then
      -- response body closed and Wait invoked here: no-ops in this model
      triesGo p oracle fuel (executed + 1) r
    else
      (executed + 1, r)

/-- `ResilientTransport.tries` from `src/aws/resilient_transport.go` /
`src/unnamed/part_002`: retry a request a maximum of `MaxTries` times. -/
def ResilientTransport.tries (self : ResilientTransport)
    (oracle : Nat → RoundTripResult) : Nat × RoundTripResult :=
  triesGo self.ShouldRetry oracle self.MaxTries.toNat 0 (none, none)

end aws

namespace s3

/-- Go's `url.Values` and `http.Header` (string-keyed multimaps), modelled
as association lists with unique keys. -/
abbrev Values : Type := List (String × List String)

/-- Map lookup. -/
def lookupValues : Values → String → Option (List String)
  | [], _ => none
  | p :: rest, k => if p.1 == k then some p.2 else lookupValues rest k

/-- Map membership of a key. -/
def containsKey : Values → String → Bool
  | [], _ => false
  | p :: rest, k => p.1 == k || containsKey rest k

/-- Replace the value stored under an existing key, in place. -/
def replaceValue : Values → String → List String → Values
  | [], _, _ => []
  | p :: rest, k, v => (if p.1 == k then (k, v) else p) :: replaceValue rest k v

/-- Map update `m[k] = v`: replace in place when the key is present,
append otherwise. -/
def setValue (hs : Values) (k : String) (v : List String) : Values :=
  if containsKey hs k then replaceValue hs k v else hs ++ [(k, v)]

/-- The first value stored under a key, or "" when absent — how the signer
reads single-valued headers and parameters. -/
def headerValue (hs : Values) (k : String) : String :=
  match lookupValues hs k with
  | some (v :: _) => v
  | _ => ""

/-- Modelled from the spec: RFC1123 formatting of the model clock
(`time.Now().In(time.UTC).Format(time.RFC1123)`); an injective rendering of
the instant stands in for the date string. -/
def rfc1123 (t : Int) : String := toString t

/-- `strings.HasPrefix(s, "/")`: whether the first character is a slash.
(Implemented over the character list so it reduces by computation.) -/
def startsWithSlash (s : String) : Bool :=
  match s.data with
  | [] => false
  | c :: _ => c == '/'

/-- `strings.IndexAny(s, chars) >= 0`: whether `s` contains any of the
given characters. -/
def containsAnyOf (s : String) (chars : List Char) : Bool :=
  s.data.any (fun c => chars.contains c)

/-- Fuel-driven core of replace-all: scan left to right, splicing `sub` in
place of each non-overlapping occurrence of the non-empty pattern `pat` and
resuming after it, exactly as Go's `strings.Replace(s, pat, sub, -1)`. -/
def replaceAllAux (pat sub : List Char) : Nat → List Char → List Char
  | 0, l => l
  | _ + 1, [] => []
  | fuel + 1, c :: rest =>
    if pat.isPrefixOf (c :: rest) && !pat.isEmpty then
      sub ++ replaceAllAux pat sub fuel (List.drop (pat.length - 1) rest)
    else
      c :: replaceAllAux pat sub fuel rest

/-- Go `strings.Replace(s, pat, sub, -1)`. -/
def replaceAll (s pat sub : String) : String :=
  ⟨replaceAllAux pat.data sub.data s.data.length s.data⟩

/-- The remainder of a character list after the first occurrence of the
non-empty pattern `pat`, if any. -/
def afterFirst (pat : List Char) : Nat → List Char → Option (List Char)
  | 0, _ => none
  | _ + 1, [] => none
  | fuel + 1, c :: rest =>
    if pat.isPrefixOf (c :: rest) && !pat.isEmpty then
      some (List.drop (pat.length - 1) rest)
    else
      afterFirst pat fuel rest

/-- Joining with `&` for the sub-resource suffix. -/
def ampJoin : List String → String
  | [] => ""
  | [v] => v
  | v :: vs => v ++ "&" ++ ampJoin vs

/-- Byte-wise lexicographic comparison of strings, over the character
lists. -/
def strLeAux : List Char → List Char → Bool
  | [], _ => true
  | _ :: _, [] => false
  | a :: as, b :: bs =>
    if a == b then strLeAux as bs else decide (a.toNat < b.toNat)

/-- Lexicographic `≤` on strings. -/
def strLe (a b : String) : Bool := strLeAux a.data b.data

/-- Values of a multi-valued header joined by commas. -/
def commaJoin : List String → String
  | [] => ""
  | [v] => v
  | v :: vs => v ++ "," ++ commaJoin vs

/-- Insertion into a lexicographically sorted list of strings. -/
def insertSorted (s : String) : List String → List String
  | [] => [s]
  | x :: xs => if strLe s x then s :: x :: xs else x :: insertSorted s xs

/-- Lexicographic sort of a list of strings. -/
def sortStrings (l : List String) : List String := l.foldr insertSorted []

/-- The `x-amz-*` header block of the canonical string: one
`name:value1,value2` line per header, sorted lexicographically. -/
def amzHeaderLines (headers : Values) : String :=
  let amz := headers.filter (fun p => "x-amz-".data.isPrefixOf p.1.data)
  let lines := sortStrings (amz.map (fun p => p.1 ++ ":" ++ commaJoin p.2))
  String.join (lines.map (fun l => l ++ "\n"))

/-- The sub-resource query parameters that participate in the canonical
string (the whitelist named by the spec). -/
def subresourceNames : List String := ["acl", "location", "logging", "torrent"]

/-- A sub-resource rendered for the canonical string: `key` or
`key=value`. -/
def renderParam (params : Values) (k : String) : String :=
  match headerValue params k with
  | "" => k
  | v => k ++ "=" ++ v

/-- The sub-resource suffix of the canonical string: the whitelisted query
parameters present on the request, sorted, rendered after a `?`. -/
def subresourceString (params : Values) : String :=
  let present := sortStrings ((params.filter
    (fun p => subresourceNames.contains p.1)).map (·.1))
  match present with
  | [] => ""
  | _ => "?" ++ ampJoin (present.map (renderParam params))

/-- Modelled from the spec: the canonical string built by the signer (the
`sign` function of the aws package is not under `src/`; only its call site
in `S3.prepare` is). Per the spec: method, then the content-MD5,
content-type and date headers each on a line (empty when absent, and with
the date replaced by the explicit `Expires` epoch value for pre-signed
URLs), then the sorted `x-amz-*` header lines, then the signable path, then
the sorted whitelisted sub-resources. -/
def canonicalString (method signpath : String) (params headers : Values) : String :=
  let date := if (lookupValues params "Expires").isSome then
      headerValue params "Expires"
    else
      headerValue headers "Date"
  method ++ "\n" ++
  headerValue headers "Content-MD5" ++ "\n" ++
  headerValue headers "Content-Type" ++ "\n" ++
  date ++ "\n" ++
  amzHeaderLines headers ++
  signpath ++ subresourceString params

/-- Modelled from the spec: stands in for
`base64(HMAC-SHA1(secret, message))`. The cryptographic primitive lives
outside the repository; an injective pairing of key and message models its
keyed, message-determined output. -/
def hmacSha1Base64 (secret message : String) : String :=
  secret ++ "|" ++ message

/-- Modelled from the spec: the first step of the canonical signer
`sign(auth, method, signpath, params, headers)` called by `S3.prepare` —
not under `src/`. Attaches the session-token header when the credentials
carry a token. (The pre-signed-URL placement of the signature in the query
string is not modelled; no claim exercises it.) -/
def stampToken (auth : aws.Auth) (headers : Values) : Values :=
  if auth.Token == "" then headers
  else setValue headers "X-Amz-Security-Token" [auth.Token]

/-- Modelled from the spec (continuation of `stampToken`): compute the
keyed hash of the canonical string and attach it as
`Authorization: AWS <accessKey>:<signature>`. -/
def sign (auth : aws.Auth) (method signpath : String)
    (params headers : Values) : Values :=
  let headers := stampToken auth headers
  let signature := hmacSha1Base64 auth.SecretKey
    (canonicalString method signpath params headers)
  setValue headers "Authorization" ["AWS " ++ auth.AccessKey ++ ":" ++ signature]

/-- `request` from the request-descriptor file (`src/unnamed/part_000`).
The payload (an `io.Reader`) takes no part in resolution or signing and is
omitted. -/
structure request where
  method   : String
  bucket   : String
  path     : String
  signpath : String
  params   : Values
  headers  : Values
  baseurl  : String
  prepared : Bool
deriving Repr, DecidableEq

/-- The `S3` type from `src/src/aws/s3/s3.go`: embedded credentials and
region (the reserved private byte is dropped). -/
structure S3 where
  Auth   : aws.Auth
  Region : aws.Region
deriving Repr, DecidableEq

/-- The host component of a URL, as `url.Parse(u).Host` yields for the
well-formed endpoint URLs of the region table: the text between the scheme
separator and the next slash. Parse failures (reported by `prepare` as
errors in Go) do not arise for any string in this total model. -/
def hostOf (u : String) : String :=
  let rest := match afterFirst "://".data u.data.length u.data with
    | some r => r
    | none => u.data
  ⟨rest.takeWhile (fun c => !(c == '/'))⟩

/-- Models Go's `%q` rendering of a string (as used by
`fmt.Errorf("bad S3 bucket: %q", ...)`): the string between double
quotes. -/
def goQuote (s : String) : String := "\"" ++ s ++ "\""

/-- The resolution block of `S3.prepare` — the body of `if !req.prepared`
(s3.go lines 92–127). Returns the updated request and the error, if any;
field writes made before the error are kept, as with Go's in-place
mutation. The copies of `params`/`headers` made there are value-preserving
and hence the identity in this model. -/
def resolveStep (region : aws.Region) (req : request) : request × Option String :=
  let req := { req with prepared := true }
  let req := if req.method == "" then { req with method := "GET" } else req
  let req := if startsWithSlash req.path then req
    else { req with path := "/" ++ req.path }
  let req := { req with signpath := req.path }
  if req.bucket == "" then
    (req, none)
  else
    let req := { req with baseurl := region.S3BucketEndpoint }
    let step : request × Option String :=
      if req.baseurl == "" then
        -- Use the path method to address the bucket.
        ({ req with baseurl := region.S3Endpoint,
                    path := "/" ++ req.bucket ++ req.path }, none)
      else if containsAnyOf req.bucket ['/', ':', '@'] then
        -- Just in case, prevent injection.
        (req, some ("bad S3 bucket: " ++ goQuote req.bucket))
      else
        ({ req with baseurl := replaceAll req.baseurl "${bucket}" req.bucket }, none)
    match step with
    | (req, some e) => (req, some e)
    | (req, none) => ({ req with signpath := "/" ++ req.bucket ++ req.signpath }, none)

/-- `S3.prepare` from s3.go: resolve once (guarded by `req.prepared`), then
always re-stamp `Host` and `Date` and re-sign. `now` is the clock instant.
The `url.Parse(req.baseurl)` error branch cannot fire since `hostOf` is
total. -/
def S3.prepare (self : S3) (req : request) (now : Int) : request × Option String :=
  let (req, err) := if req.prepared then (req, none) else resolveStep self.Region req
  match err with
  | some e => (req, some e)
  | none =>
    -- Always sign again as it's not clear how far the
    -- server has handled a previous attempt.
    let headers := setValue req.headers "Host" [hostOf req.baseurl]
    let headers := setValue headers "Date" [rfc1123 now]
    let headers := sign self.Auth req.method req.signpath req.params headers
    ({ req with headers := headers }, none)

/-- `buildError` from s3.go lines 190–214: decode the body into a zero
`Error` (ignoring decode failures — the source's TODO), stamp the HTTP
status code, and fall back to the status line text when the message is
empty. -/
def buildError (r : HttpResponse) : Error :=
  let err := r.errorBody
  let err := { err with StatusCode := r.StatusCode }
  if err.Message == "" then { err with Message := r.Status } else err

/-- The response-classification step of `S3.run` (s3.go lines 179–188):
any status other than 200/204 closes the body and returns `buildError`;
otherwise the response is handed on. Transport execution and success-body
decoding sit outside this model. -/
def run (r : HttpResponse) : Except Error HttpResponse :=
  if r.StatusCode ≠ 200 ∧ r.StatusCode ≠ 204 then
    .error (buildError r)
  else
    .ok r

/-- The error values `shouldRetry` (s3.go lines 216–239) distinguishes:
nil, `io.EOF`, `io.ErrUnexpectedEOF`, `*net.DNSError`, `*net.OpError`
(with its `Op` string), a decoded `*s3.Error`, or any other error. -/
inductive GoError where
  | ioEOF
  | ioUnexpectedEOF
  | dnsError
  | opError (op : String)
  | s3Error (e : Error)
  | other
deriving Repr, DecidableEq

/-- `shouldRetry` from s3.go lines 216–239. -/
def shouldRetry : Option GoError → Bool
  | none => false
  | some .ioEOF => true
  | some .ioUnexpectedEOF => true
  | some .dnsError => true
  | some (.opError op) => op == "read" || op == "write"
  | some (.s3Error e) =>
    e.Code == "InternalError" || e.Code == "NoSuchUpload" || e.Code == "NoSuchBucket"
  | some .other => false

/-- The package-level `attempts` strategy of the s3 package:
`{Min: 5, Total: 5 * time.Second, Delay: 200 * time.Millisecond}`
(durations in nanoseconds). -/
def attempts : aws.AttemptStrategy :=
  { Min := 5, Total := 5000000000, Delay := 200000000 }

/-- The per-iteration environment of the retry loop in `Bucket.GetResponse`
(`src/unnamed/part_001` lines 91–100): the clock instants read by
`attempt.Next()` (at entry and after its sleep), the error produced by
`S3.run` for this iteration (nil on success), and the instant read by
`attempt.HasNext()` when it is consulted. -/
structure LoopStep where
  nextNow    : Int
  nextWake   : Int
  runErr     : Option GoError
  hasNextNow : Int

/-- Outcomes of the `Bucket.GetResponse` loop: a `return` out of the loop
body (recording whether it returned the error or the response), the
`panic("unreachable")` after the loop, or the supplied iteration
environment running out (the loop would keep going). -/
inductive LoopOutcome where
  | returned (isError : Bool)
  | panicked
  | outOfSteps
deriving Repr, DecidableEq

/-- The retry loop of `Bucket.GetResponse`:
`for attempt := attempts.Start(); attempt.Next(); { resp, err := run(...);
if shouldRetry(err) && attempt.HasNext() { continue }; if err != nil
{ return nil, err }; return resp, nil }`, followed by
`panic("unreachable")`. Go's `&&` short-circuits, so `HasNext` (and its
force-flag side effect) runs only when `shouldRetry(err)` is true. -/
def getResponseLoop : aws.Attempt → List LoopStep → LoopOutcome
  | _, [] => .outOfSteps
  | att, step :: rest =>
    if (att.next step.nextNow step.nextWake).1 then
      if shouldRetry step.runErr then
        if ((att.next step.nextNow step.nextWake).2.hasNext step.hasNextNow).1 then
          getResponseLoop ((att.next step.nextNow step.nextWake).2.hasNext step.hasNextNow).2 rest
        else .returned step.runErr.isSome
      else .returned step.runErr.isSome
    else .panicked

/-- Concrete fixtures used by witnesses and counterexamples. -/
def exAuth : aws.Auth := ⟨"AKEX", "SECRET", ""⟩

def exRegionPath : aws.Region :=
  ⟨"us-east-1", "https://s3.amazonaws.com", "", false, false⟩

def exRegionVirt : aws.Region :=
  ⟨"test-region", "https://s3.test.example.com",
   "https://${bucket}.s3.example.com", false, false⟩

def exS3Path : S3 := ⟨exAuth, exRegionPath⟩

def exS3Virt : S3 := ⟨exAuth, exRegionVirt⟩

def exReq : request := ⟨"GET", "example", "/key", "", [], [], "", false⟩

def exReqBad : request := ⟨"", "bad/bucket", "key", "", [], [], "", false⟩

def exError0 : Error := ⟨0, "", "", ""⟩

end s3

namespace aws

/-- Any freshly started attempt is in a guaranteed state. -/
theorem start_nextGuaranteed (s : AttemptStrategy) (t : Int) :
    (s.start t).nextGuaranteed := Or.inl rfl

/-- From a guaranteed state, `next` returns true at every instant. -/
theorem next_true_of_nextGuaranteed (a : Attempt) (now wake : Int)
    (h : a.nextGuaranteed) : (a.next now wake).1 = true := by
  unfold Attempt.next
  have hcond : ¬ (a.force = false ∧ ¬ now + a.nextSleep now < a.endTime ∧
      a.strategy.Min ≤ a.count) := by
    rcases h with h | h
    · intro hc
      rw [h] at hc
      exact Bool.noConfusion hc.1
    · intro hc
      exact absurd hc.2.2 (not_le.mpr h)
  rw [if_neg hcond]
  dsimp only
  split <;> rfl

/-- When `hasNext` answers true, the state it leaves behind is guaranteed. -/
theorem hasNext_true_nextGuaranteed (a : Attempt) (now : Int)
    (h : (a.hasNext now).1 = true) : ((a.hasNext now).2).nextGuaranteed := by
  unfold Attempt.hasNext at h ⊢
  by_cases h1 : a.force = true ∨ a.strategy.Min > a.count
  · rw [if_pos h1]
    rcases h1 with h1 | h1
    · exact Or.inl h1
    · exact Or.inr h1
  · rw [if_neg h1] at h ⊢
    by_cases h2 : now + a.nextSleep now < a.endTime
    · rw [if_pos h2]
      exact Or.inl rfl
    · rw [if_neg h2] at h
      exact absurd h (by simp)

/-- C3: the first call to `Next()` on a freshly started attempt returns
true for every strategy and every clock reading; any call made while fewer
than `Min` attempts have been counted returns true regardless of elapsed
time; and once the force flag has been consumed, at least `Min` attempts
are counted, and the budget is exceeded (the end instant is no later than
now plus the pending sleep), `Next()` returns false. -/
theorem next_first_true_min_overrides_budget
    (s : AttemptStrategy) (a : Attempt) (t0 now wake : Int) :
    ((s.start t0).next now wake).1 = true ∧
    (a.count < a.strategy.Min → (a.next now wake).1 = true) ∧
    (a.force = false → a.strategy.Min ≤ a.count →
      a.endTime ≤ now + a.nextSleep now → (a.next now wake).1 = false) := by
  refine ⟨?_, ?_, ?_⟩
  · exact next_true_of_nextGuaranteed _ now wake (start_nextGuaranteed s t0)
  · intro h
    exact next_true_of_nextGuaranteed a now wake (Or.inr h)
  · intro hf hm hb
    unfold Attempt.next
    rw [if_pos ⟨hf, not_lt.mpr hb, hm⟩]

/-- Witness for C3 at the s3 package strategy
{Min 5, Total 5s, Delay 200ms}: a fresh start answers true even when
polled well past the budget; a state with only 3 of 5 attempts counted
still answers true at instant 7s; a state with 5 attempts counted and the
budget exhausted answers false. -/
theorem next_first_true_min_overrides_budget_witness :
    (((⟨5000000000, 200000000, 5⟩ : AttemptStrategy).start 0).next
        6000000000 6000000000).1 = true ∧
    (({ strategy := ⟨5000000000, 200000000, 5⟩, last := 0,
        endTime := 5000000000, force := false, count := 3 } : Attempt).next
        7000000000 7000000000).1 = true ∧
    (({ strategy := ⟨5000000000, 200000000, 5⟩, last := 0,
        endTime := 5000000000, force := false, count := 5 } : Attempt).next
        7000000000 7000000000).1 = false := by
  refine ⟨?_, ?_, ?_⟩
  · exact (next_first_true_min_overrides_budget ⟨5000000000, 200000000, 5⟩
      (AttemptStrategy.start ⟨5000000000, 200000000, 5⟩ 0)
      0 6000000000 6000000000).1
  · exact (next_first_true_min_overrides_budget ⟨5000000000, 200000000, 5⟩
      { strategy := ⟨5000000000, 200000000, 5⟩, last := 0,
        endTime := 5000000000, force := false, count := 3 }
      0 7000000000 7000000000).2.1 (by decide)
  · exact (next_first_true_min_overrides_budget ⟨5000000000, 200000000, 5⟩
      { strategy := ⟨5000000000, 200000000, 5⟩, last := 0,
        endTime := 5000000000, force := false, count := 5 }
      0 7000000000 7000000000).2.2 rfl (by decide) (by decide)

/-- C4: when `HasNext()` answers true, the immediately following call to
`Next()` on the state `HasNext` leaves behind also answers true, whatever
clock instants the two calls observe. -/
theorem hasNext_true_guarantees_next
    (a : Attempt) (now now2 wake : Int)
    (h : (a.hasNext now).1 = true) :
    (((a.hasNext now).2).next now2 wake).1 = true :=
  next_true_of_nextGuaranteed _ now2 wake (hasNext_true_nextGuaranteed a now h)

/-- Witness for C4: a fresh attempt answers true to `hasNext` at instant 0,
and the following `next` answers true even when the clock then jumps far
past the budget. -/
theorem hasNext_true_guarantees_next_witness :
    ((((⟨5000000000, 200000000, 5⟩ : AttemptStrategy).start 0).hasNext
        0).2.next 99999999999 99999999999).1 = true :=
  hasNext_true_guarantees_next
    ((⟨5000000000, 200000000, 5⟩ : AttemptStrategy).start 0)
    0 99999999999 99999999999 (by decide)

/-- The retry loop under a predicate that always answers true runs its full
fuel, executing one round trip per iteration and keeping the last result. -/
theorem triesGo_const_true (p : RoundTripResult → Bool)
    (hp : ∀ r, p r = true) (oracle : Nat → RoundTripResult) :
    ∀ (fuel : Nat), 1 ≤ fuel → ∀ (executed : Nat) (last : RoundTripResult),
      triesGo p oracle fuel executed last =
        (executed + fuel, oracle (executed + fuel - 1)) := by
  intro fuel
  induction fuel with
  | zero => intro h; exact absurd h (by decide)
  | succ n ih =>
    intro _ executed last
    unfold triesGo
    dsimp only
    rw [hp (oracle executed), if_pos rfl]
    rcases Nat.eq_zero_or_pos n with h0 | hpos
    · subst h0
      simp [triesGo]
    · rw [ih hpos (executed + 1) (oracle executed)]
      have h1 : executed + 1 + n = executed + (n + 1) := by omega
      rw [h1]

/-- C5: a `ResilientTransport` whose retryability predicate always answers
true performs exactly `MaxTries` round trips (no further attempt) and
returns the result of the last one. -/
theorem tries_exhausts_maxTries (self : ResilientTransport)
    (oracle : Nat → RoundTripResult)
    (hp : ∀ r, self.ShouldRetry r = true) (hn : 1 ≤ self.MaxTries) :
    self.tries oracle = (self.MaxTries.toNat, oracle (self.MaxTries.toNat - 1)) := by
  unfold ResilientTransport.tries
  have h1 : 1 ≤ self.MaxTries.toNat := by omega
  rw [triesGo_const_true self.ShouldRetry hp oracle self.MaxTries.toNat h1 0 (none, none)]
  simp

/-- Witness for C5 at `MaxTries = 3` (the default transport configuration)
and an oracle whose i-th round trip yields status 500 + i: exactly 3
executions happen and the third result (status 502) is returned. -/
theorem tries_exhausts_maxTries_witness :
    ResilientTransport.tries ⟨3, fun _ => true⟩
      (fun i => (some ⟨500 + (i : Int), "", s3.exError0⟩, none)) =
    (3, (some ⟨502, "", s3.exError0⟩, none)) :=
  (tries_exhausts_maxTries ⟨3, fun _ => true⟩
    (fun i => (some ⟨500 + (i : Int), "", s3.exError0⟩, none))
    (fun _ => rfl) (by decide)).trans (by decide)

/-- C9: `awsRetry` answers true exactly when the error is a temporary
network error or the response is non-nil with a status code in [500, 600);
in particular it answers false on a 2xx response with nil error and on
non-temporary errors. -/
theorem awsRetry_characterization :
    (∀ (res : Option HttpResponse) (err : Option GoTransportError),
      awsRetry res err = (isTemporaryNetError err || is5xxResponse res)) ∧
    (∀ r : HttpResponse, 200 ≤ r.StatusCode → r.StatusCode < 300 →
      awsRetry (some r) none = false) ∧
    awsRetry none (some (.net false)) = false ∧
    awsRetry none (some .other) = false := by
  have hmain : ∀ (res : Option HttpResponse) (err : Option GoTransportError),
      awsRetry res err = (isTemporaryNetError err || is5xxResponse res) := by
    intro res err
    unfold awsRetry isTemporaryNetError is5xxResponse
    cases res with
    | none =>
      cases err with
      | none => rfl
      | some e =>
        cases e with
        | net temporary => cases temporary <;> rfl
        | other => rfl
    | some r =>
      by_cases h5 : 500 ≤ r.StatusCode ∧ r.StatusCode < 600
      · cases err with
        | none => simp [h5]
        | some e =>
          cases e with
          | net temporary => cases temporary <;> simp [h5]
          | other => simp [h5]
      · cases err with
        | none => simp [h5]
        | some e =>
          cases e with
          | net temporary => cases temporary <;> simp [h5]
          | other => simp [h5]
  refine ⟨hmain, ?_, rfl, rfl⟩
  intro r h200 h300
  rw [hmain (some r) none]
  have h5 : ¬ (500 ≤ r.StatusCode ∧ r.StatusCode < 600) := by omega
  simp [isTemporaryNetError, is5xxResponse, h5]

/-- Witness for C9: a 200-status response with nil error is not retried. -/
theorem awsRetry_characterization_witness :
    awsRetry (some ⟨200, "200 OK", s3.exError0⟩) none = false :=
  awsRetry_characterization.2.1 ⟨200, "200 OK", s3.exError0⟩
    (by decide) (by decide)

end aws

namespace s3

/-- Looking up a key after the in-place replacement of its value yields
the new value, provided the key was present. -/
theorem lookupValues_replaceValue_self (k : String) (v : List String) :
    ∀ hs : Values, containsKey hs k = true →
      lookupValues (replaceValue hs k v) k = some v := by
  intro hs
  induction hs with
  | nil => intro h; exact Bool.noConfusion h
  | cons p rest ih =>
    intro h
    by_cases hp : (p.1 == k) = true
    · simp [replaceValue, lookupValues, hp]
    · simp [replaceValue, lookupValues, hp]
      apply ih
      unfold containsKey at h
      have hpf : (p.1 == k) = false := by
        cases hb : (p.1 == k)
        · rfl
        · exact absurd hb hp
      rw [hpf] at h
      simpa using h

/-- In-place replacement under one key leaves the lookup of every other
key unchanged. -/
theorem lookupValues_replaceValue_ne (k k' : String) (v : List String)
    (hne : k' ≠ k) :
    ∀ hs : Values,
      lookupValues (replaceValue hs k v) k' = lookupValues hs k' := by
  intro hs
  induction hs with
  | nil => rfl
  | cons p rest ih =>
    by_cases hp : (p.1 == k) = true
    · have hp1 : p.1 = k := eq_of_beq hp
      have h1 : (k == k') = false := beq_eq_false_iff_ne.mpr (Ne.symm hne)
      have h2 : (p.1 == k') = false := by rw [hp1]; exact h1
      simp [replaceValue, lookupValues, hp, h1, h2, ih]
    · by_cases hp' : (p.1 == k') = true
      · simp [replaceValue, lookupValues, hp, hp']
      · simp [replaceValue, lookupValues, hp, hp', ih]

/-- Appending a `(k, v)` entry makes the lookup of `k` find it when `k`
was absent, and leaves the lookup of every other key unchanged. -/
theorem lookupValues_append_single (k : String) (v : List String) :
    ∀ hs : Values,
      (containsKey hs k = false →
        lookupValues (hs ++ [(k, v)]) k = some v) ∧
      (∀ k', k' ≠ k → lookupValues (hs ++ [(k, v)]) k' = lookupValues hs k') := by
  intro hs
  induction hs with
  | nil =>
    constructor
    · intro _
      simp [lookupValues]
    · intro k' hk'
      have h1 : (k == k') = false := beq_eq_false_iff_ne.mpr (Ne.symm hk')
      simp [lookupValues, h1]
  | cons p rest ih =>
    constructor
    · intro hc
      have hpk : (p.1 == k) = false := by
        cases hb : (p.1 == k)
        · rfl
        · unfold containsKey at hc
          rw [hb] at hc
          simp at hc
      have hrest : containsKey rest k = false := by
        unfold containsKey at hc
        rw [hpk] at hc
        simpa using hc
      simp [lookupValues, hpk, ih.1 hrest]
    · intro k' hk'
      by_cases hp' : (p.1 == k') = true
      · simp [lookupValues, hp']
      · simp [lookupValues, hp', ih.2 k' hk']

/-- Looking up a key right after setting it yields the new value. -/
theorem lookupValues_setValue_self (hs : Values) (k : String) (v : List String) :
    lookupValues (setValue hs k v) k = some v := by
  unfold setValue
  by_cases hc : containsKey hs k = true
  · rw [if_pos hc]
    exact lookupValues_replaceValue_self k v hs hc
  · rw [if_neg hc]
    refine (lookupValues_append_single k v hs).1 ?_
    cases h : containsKey hs k
    · rfl
    · exact absurd h hc

/-- Setting one key leaves the lookup of every other key unchanged. -/
theorem lookupValues_setValue_ne (hs : Values) (k k' : String)
    (v : List String) (hne : k' ≠ k) :
    lookupValues (setValue hs k v) k' = lookupValues hs k' := by
  unfold setValue
  split
  · exact lookupValues_replaceValue_ne k k' v hne hs
  · exact (lookupValues_append_single k v hs).2 k' hne

/-- `sign` touches only the `Authorization` and `X-Amz-Security-Token`
headers. -/
theorem lookup_sign_other (auth : aws.Auth) (method signpath : String)
    (params headers : Values) (k : String)
    (h1 : k ≠ "Authorization") (h2 : k ≠ "X-Amz-Security-Token") :
    lookupValues (sign auth method signpath params headers) k =
      lookupValues headers k := by
  unfold sign
  dsimp only
  rw [lookupValues_setValue_ne _ _ _ _ h1]
  unfold stampToken
  split
  · rfl
  · rw [lookupValues_setValue_ne _ _ _ _ h2]

/-- The `Authorization` header produced by `sign` is the access key and the
keyed hash of the canonical string over the token-stamped headers. -/
theorem lookup_sign_authorization (auth : aws.Auth) (method signpath : String)
    (params headers : Values) :
    lookupValues (sign auth method signpath params headers) "Authorization" =
      some ["AWS " ++ auth.AccessKey ++ ":" ++
        hmacSha1Base64 auth.SecretKey
          (canonicalString method signpath params (stampToken auth headers))] := by
  unfold sign
  dsimp only
  exact lookupValues_setValue_self _ _ _

/-- C7: `shouldRetry` classifies a decoded structured error as retryable
exactly when its code is `InternalError`, `NoSuchUpload` or `NoSuchBucket`;
in particular `NoSuchBucket` is retryable, `AccessDenied` is not, and a nil
error never is. -/
theorem shouldRetry_structured_codes :
    (∀ e : Error, shouldRetry (some (.s3Error e)) =
      (e.Code == "InternalError" || e.Code == "NoSuchUpload" ||
        e.Code == "NoSuchBucket")) ∧
    shouldRetry (some (.s3Error ⟨409, "NoSuchBucket", "", ""⟩)) = true ∧
    shouldRetry (some (.s3Error ⟨403, "AccessDenied", "", ""⟩)) = false ∧
    shouldRetry none = false :=
  ⟨fun _ => rfl, by decide, by decide, rfl⟩

/-- C8: any status other than 200/204 makes `run` return a structured
error; the error carries the response's status code, and when the decoded
error document has an empty message the status line text becomes the
message. -/
theorem run_non_success_error (r : HttpResponse)
    (h200 : r.StatusCode ≠ 200) (h204 : r.StatusCode ≠ 204) :
    run r = .error (buildError r) ∧
    (buildError r).StatusCode = r.StatusCode ∧
    (r.errorBody.Message = "" → (buildError r).Message = r.Status) := by
  refine ⟨?_, ?_, ?_⟩
  · unfold run
    rw [if_pos ⟨h200, h204⟩]
  · unfold buildError
    dsimp only
    split <;> rfl
  · intro hm
    unfold buildError
    dsimp only
    simp [hm]

/-- Witness for C8: a 403 response with an undecodable (zero) error body
yields a structured error with status code 403 and the status line as its
message. -/
theorem run_non_success_error_witness :
    run ⟨403, "403 Forbidden", exError0⟩ =
      Except.error ⟨403, "", "403 Forbidden", ""⟩ ∧
    (buildError ⟨403, "403 Forbidden", exError0⟩).StatusCode = 403 ∧
    (buildError ⟨403, "403 Forbidden", exError0⟩).Message = "403 Forbidden" := by
  have h := run_non_success_error ⟨403, "403 Forbidden", exError0⟩
    (by decide) (by decide)
  exact ⟨h.1.trans (congrArg Except.error (by decide)), h.2.1.trans (by decide),
    (h.2.2 rfl).trans rfl⟩

/-- From a guaranteed attempt state, the `GetResponse` loop never reaches
the `panic("unreachable")`: every iteration either returns or re-enters
through a true `HasNext`, which re-establishes the guarantee. -/
theorem getResponseLoop_no_panic_of_guaranteed :
    ∀ (steps : List LoopStep) (att : aws.Attempt), att.nextGuaranteed →
      getResponseLoop att steps ≠ LoopOutcome.panicked := by
  intro steps
  induction steps with
  | nil =>
    intro att _ h
    exact LoopOutcome.noConfusion h
  | cons step rest ih =>
    intro att hg
    unfold getResponseLoop
    rw [aws.next_true_of_nextGuaranteed att step.nextNow step.nextWake hg,
      if_pos rfl]
    by_cases hr : shouldRetry step.runErr = true
    · rw [if_pos hr]
      by_cases hh :
          ((att.next step.nextNow step.nextWake).2.hasNext step.hasNextNow).1 = true
      · rw [if_pos hh]
        exact ih _ (aws.hasNext_true_nextGuaranteed _ _ hh)
      · rw [if_neg hh]
        intro h
        exact LoopOutcome.noConfusion h
    · rw [if_neg hr]
      intro h
      exact LoopOutcome.noConfusion h

/-- C10: starting from `attempts.Start()`, the `Bucket.GetResponse` retry
loop can only be left through one of its `return` statements — the
`panic("unreachable")` after the loop never executes, for every sequence of
clock readings and run results. -/
theorem getResponse_panic_unreachable (t0 : Int) (steps : List LoopStep) :
    getResponseLoop (attempts.start t0) steps ≠ LoopOutcome.panicked :=
  getResponseLoop_no_panic_of_guaranteed steps _
    (aws.start_nextGuaranteed attempts t0)

/-- On an already-resolved request, `prepare` only re-stamps `Host` and
`Date` and re-signs. -/
theorem prepare_prepared (self : S3) (req : request) (now : Int)
    (h : req.prepared = true) :
    self.prepare req now =
      ({ req with
          headers := sign self.Auth req.method req.signpath req.params
            (setValue (setValue req.headers "Host" [hostOf req.baseurl])
              "Date" [rfc1123 now]) }, none) := by
  unfold S3.prepare
  rw [if_pos h]

/-- On an unresolved request, `prepare` is `resolveStep` followed — on
success — by the Host/Date stamping and signing. -/
theorem prepare_unprepared (self : S3) (req : request) (now : Int)
    (h : req.prepared = false) :
    self.prepare req now =
      match resolveStep self.Region req with
      | (r, some e) => (r, some e)
      | (r, none) =>
        ({ r with
            headers := sign self.Auth r.method r.signpath r.params
              (setValue (setValue r.headers "Host" [hostOf r.baseurl])
                "Date" [rfc1123 now]) }, none) := by
  unfold S3.prepare
  rw [h, if_neg (by exact Bool.noConfusion)]
  rcases hres : resolveStep self.Region req with ⟨r, e⟩
  cases e <;> rfl

/-- `resolveStep` always marks the request as prepared, error or not. -/
theorem resolveStep_prepared (region : aws.Region) (req : request) :
    ((resolveStep region req).1).prepared = true := by
  by_cases hm : (req.method == "") = true <;>
  by_cases hs : startsWithSlash req.path = true <;>
  by_cases hb : (req.bucket == "") = true <;>
  by_cases he : (region.S3BucketEndpoint == "") = true <;>
  by_cases hc : containsAnyOf req.bucket ['/', ':', '@'] = true <;>
  simp [resolveStep, hm, hs, hb, he, hc]

/-- When resolution of a bucket-addressed request succeeds, the signable
path is `/` + bucket + the slash-prefixed original path — in both
addressing modes. -/
theorem resolveStep_ok_signpath (region : aws.Region) (req : request)
    (hb : (req.bucket == "") = false)
    (hok : (resolveStep region req).2 = none) :
    ((resolveStep region req).1).signpath =
      "/" ++ req.bucket ++
        (if startsWithSlash req.path then req.path else "/" ++ req.path) := by
  by_cases hm : (req.method == "") = true <;>
  by_cases hs : startsWithSlash req.path = true <;>
  by_cases he : (region.S3BucketEndpoint == "") = true <;>
  by_cases hc : containsAnyOf req.bucket ['/', ':', '@'] = true <;>
  simp [resolveStep, hm, hs, hb, he, hc] at hok ⊢

/-- Virtual-hosted resolution of a bucket name containing `/`, `:` or `@`
fails with the injection-guard error, after having already set the
prepared flag, defaulted the method, slash-prefixed the path, initialised
the signable path, and stored the raw endpoint template as base URL. -/
theorem resolveStep_injection (region : aws.Region) (req : request)
    (he : (region.S3BucketEndpoint == "") = false)
    (hc : containsAnyOf req.bucket ['/', ':', '@'] = true) :
    resolveStep region req =
      ({ req with
          prepared := true,
          method := if req.method == "" then "GET" else req.method,
          path := if startsWithSlash req.path then req.path
            else "/" ++ req.path,
          signpath := if startsWithSlash req.path then req.path
            else "/" ++ req.path,
          baseurl := region.S3BucketEndpoint },
       some ("bad S3 bucket: " ++ goQuote req.bucket)) := by
  have hb : (req.bucket == "") = false := by
    cases hbb : (req.bucket == "")
    · rfl
    · exfalso
      have hempty : req.bucket = "" := eq_of_beq hbb
      rw [hempty] at hc
      exact absurd hc (by decide)
  by_cases hm : (req.method == "") = true <;>
  by_cases hs : startsWithSlash req.path = true <;>
  simp [resolveStep, hm, hs, hb, he, hc]

/-- A successful `prepare` of an unresolved request goes through
`resolveStep` and only changes the headers afterwards. -/
theorem prepare_unprepared_ok (self : S3) (req : request) (now : Int)
    (hp : req.prepared = false) (hok : (self.prepare req now).2 = none) :
    (resolveStep self.Region req).2 = none ∧
    ((self.prepare req now).1).signpath = ((resolveStep self.Region req).1).signpath := by
  rw [prepare_unprepared self req now hp] at hok ⊢
  rcases hres : resolveStep self.Region req with ⟨r, e⟩
  cases e with
  | some e =>
    rw [hres] at hok
    exact Option.noConfusion hok
  | none => exact ⟨rfl, rfl⟩

/-- A successful `prepare` leaves a request whose resolved fields came from
a prepared state and whose headers are the Host/Date-stamped, signed
headers of that state. -/
theorem prepare_ok_shape (self : S3) (req : request) (t : Int)
    (h : (self.prepare req t).2 = none) :
    ∃ r : request, r.prepared = true ∧
      (self.prepare req t).1 =
        { r with
            headers := sign self.Auth r.method r.signpath r.params
              (setValue (setValue r.headers "Host" [hostOf r.baseurl])
                "Date" [rfc1123 t]) } := by
  by_cases hp : req.prepared = true
  · refine ⟨req, hp, ?_⟩
    rw [prepare_prepared self req t hp]
  · have hp' : req.prepared = false := by
      cases hb : req.prepared
      · rfl
      · exact absurd hb hp
    rw [prepare_unprepared self req t hp'] at h ⊢
    rcases hres : resolveStep self.Region req with ⟨r, e⟩
    cases e with
    | some e =>
      rw [hres] at h
      exact Option.noConfusion h
    | none =>
      refine ⟨r, ?_, rfl⟩
      have hpr := resolveStep_prepared self.Region req
      rw [hres] at hpr
      exact hpr

/-- C1: for a request with a non-empty bucket that passes resolution, the
signable path is `/` + bucket + the slash-prefixed original path, and it is
the same value whether the region resolves path-style (empty
`S3BucketEndpoint`) or virtual-hosted (non-empty template), even though the
two modes produce different base URLs and resource paths. -/
theorem signpath_same_both_modes
    (aPath aVirt : S3) (req : request) (t1 t2 : Int)
    (hb : req.bucket ≠ "") (hp : req.prepared = false)
    (h1 : aPath.Region.S3BucketEndpoint = "")
    (h2 : aVirt.Region.S3BucketEndpoint ≠ "")
    (ok1 : (aPath.prepare req t1).2 = none)
    (ok2 : (aVirt.prepare req t2).2 = none) :
    ((aPath.prepare req t1).1).signpath =
      "/" ++ req.bucket ++
        (if startsWithSlash req.path then req.path else "/" ++ req.path) ∧
    ((aVirt.prepare req t2).1).signpath =
      "/" ++ req.bucket ++
        (if startsWithSlash req.path then req.path else "/" ++ req.path) := by
  have hb' : (req.bucket == "") = false := beq_eq_false_iff_ne.mpr hb
  have A := prepare_unprepared_ok aPath req t1 hp ok1
  have B := prepare_unprepared_ok aVirt req t2 hp ok2
  exact ⟨A.2.trans (resolveStep_ok_signpath aPath.Region req hb' A.1),
    B.2.trans (resolveStep_ok_signpath aVirt.Region req hb' B.1)⟩

/-- Witness for C1: bucket "example", path "/key" resolve to signable path
"/example/key" both under the path-style region (empty bucket endpoint) and
the virtual-hosted region (`${bucket}` template). -/
theorem signpath_same_both_modes_witness :
    ((exS3Path.prepare exReq 0).1).signpath = "/example/key" ∧
    ((exS3Virt.prepare exReq 0).1).signpath = "/example/key" := by
  have h := signpath_same_both_modes exS3Path exS3Virt exReq 0 0
    (by decide) rfl rfl (by decide) (by decide) (by decide)
  exact ⟨h.1.trans (by decide), h.2.trans (by decide)⟩

/-- Counterexample to C2 as stated: resolving bucket "bad/bucket" under the
virtual-hosted region does fail, but the descriptor is not left unmutated —
the prepared flag, method, path, signable path and base URL all change. -/
theorem injection_unmutated_counterexample :
    ((exS3Virt.prepare exReqBad 0).2).isSome = true ∧
    (exS3Virt.prepare exReqBad 0).1 ≠ exReqBad := by
  decide

/-- C2 (amended): for every bucket name containing `/`, `:` or `@`,
resolution under a region with a non-empty bucket-endpoint template fails
with the addressing error `bad S3 bucket: "<bucket>"`, and the failed
descriptor is exactly the input with the prepared flag set, the method
defaulted, the path slash-prefixed, the signable path initialised to that
slash-prefixed path, and the base URL set to the raw template — the bucket
name is never spliced into the path, signable path or base URL. -/
theorem injection_guard_error_and_mutation (self : S3) (req : request)
    (now : Int)
    (hp : req.prepared = false)
    (he : self.Region.S3BucketEndpoint ≠ "")
    (hc : containsAnyOf req.bucket ['/', ':', '@'] = true) :
    self.prepare req now =
      ({ req with
          prepared := true,
          method := if req.method == "" then "GET" else req.method,
          path := if startsWithSlash req.path then req.path
            else "/" ++ req.path,
          signpath := if startsWithSlash req.path then req.path
            else "/" ++ req.path,
          baseurl := self.Region.S3BucketEndpoint },
       some ("bad S3 bucket: " ++ goQuote req.bucket)) := by
  have he' : (self.Region.S3BucketEndpoint == "") = false :=
    beq_eq_false_iff_ne.mpr he
  rw [prepare_unprepared self req now hp,
    resolveStep_injection self.Region req he' hc]

/-- Witness for C2's amended claim at bucket "bad/bucket". -/
theorem injection_guard_error_and_mutation_witness :
    exS3Virt.prepare exReqBad 0 =
      ({ exReqBad with
          prepared := true, method := "GET", path := "/key",
          signpath := "/key",
          baseurl := "https://${bucket}.s3.example.com" },
       some ("bad S3 bucket: " ++ goQuote "bad/bucket")) :=
  (injection_guard_error_and_mutation exS3Virt exReqBad 0 rfl (by decide)
    (by decide)).trans (by decide)

/-- C6: after a successful `prepare`, preparing the same request again at a
later instant succeeds, leaves every resolved field (path, signable path,
base URL, method, params, bucket) unchanged — the bucket prefix is never
prepended twice — and re-stamps the `Date` header with the current instant
before recomputing the `Authorization` signature over the freshly dated
headers. -/
theorem prepare_reentry_frame (self : S3) (req : request) (t1 t2 : Int)
    (h1 : (self.prepare req t1).2 = none) :
    (self.prepare (self.prepare req t1).1 t2).2 = none ∧
    ((self.prepare req t1).1).prepared = true ∧
    ((self.prepare (self.prepare req t1).1 t2).1).path =
      ((self.prepare req t1).1).path ∧
    ((self.prepare (self.prepare req t1).1 t2).1).signpath =
      ((self.prepare req t1).1).signpath ∧
    ((self.prepare (self.prepare req t1).1 t2).1).baseurl =
      ((self.prepare req t1).1).baseurl ∧
    ((self.prepare (self.prepare req t1).1 t2).1).method =
      ((self.prepare req t1).1).method ∧
    ((self.prepare (self.prepare req t1).1 t2).1).params =
      ((self.prepare req t1).1).params ∧
    ((self.prepare (self.prepare req t1).1 t2).1).bucket =
      ((self.prepare req t1).1).bucket ∧
    lookupValues ((self.prepare req t1).1).headers "Date" =
      some [rfc1123 t1] ∧
    lookupValues ((self.prepare (self.prepare req t1).1 t2).1).headers "Date" =
      some [rfc1123 t2] ∧
    lookupValues ((self.prepare (self.prepare req t1).1 t2).1).headers
        "Authorization" =
      some ["AWS " ++ self.Auth.AccessKey ++ ":" ++
        hmacSha1Base64 self.Auth.SecretKey
          (canonicalString ((self.prepare req t1).1).method
            ((self.prepare req t1).1).signpath
            ((self.prepare req t1).1).params
            (stampToken self.Auth
              (setValue (setValue ((self.prepare req t1).1).headers "Host"
                  [hostOf ((self.prepare req t1).1).baseurl])
                "Date" [rfc1123 t2])))] := by
  obtain ⟨r, hrp, hq1⟩ := prepare_ok_shape self req t1 h1
  have hq1p : ((self.prepare req t1).1).prepared = true := by
    rw [hq1]
    exact hrp
  rw [prepare_prepared self ((self.prepare req t1).1) t2 hq1p]
  refine ⟨rfl, hq1p, rfl, rfl, rfl, rfl, rfl, rfl, ?_, ?_, ?_⟩
  · rw [hq1]
    rw [lookup_sign_other _ _ _ _ _ _ (by decide) (by decide)]
    exact lookupValues_setValue_self _ _ _
  · show lookupValues (sign self.Auth _ _ _
      (setValue (setValue _ "Host" _) "Date" [rfc1123 t2])) "Date" = _
    rw [lookup_sign_other _ _ _ _ _ _ (by decide) (by decide)]
    exact lookupValues_setValue_self _ _ _
  · exact lookup_sign_authorization _ _ _ _ _

/-- Witness for C6: preparing the fixture request at instant 1 and again at
instant 2 keeps the signable path "/example/key" and re-stamps the Date
header to instant 2. -/
theorem prepare_reentry_frame_witness :
    lookupValues
        (((exS3Path.prepare (exS3Path.prepare exReq 1).1 2).1).headers)
        "Date" = some [rfc1123 2] ∧
    ((exS3Path.prepare (exS3Path.prepare exReq 1).1 2).1).signpath =
      "/example/key" := by
  have h := prepare_reentry_frame exS3Path exReq 1 2 (by decide)
  exact ⟨h.2.2.2.2.2.2.2.2.2.1, (h.2.2.2.1).trans (by decide)⟩

end s3
